import Mathlib

/-!
Verification development for the `aroadtools` repository
(`src/aroadtools/roadlib/auth.py` and `src/aroadtools/roadlib/deviceauth.py`).

Shallow embedding conventions:
* Python `bytes` values are `List Nat` (each element a byte value `< 256`;
  arithmetic that can overflow a byte or a machine word carries an explicit
  `% 256` / `% 2 ^ 32`).
* Python `str` values are `List Char` (the claims only exercise ASCII data).
* Python dicts are association lists `List (String × JVal)`; insertion
  updates an existing key in place, mirroring dict assignment.
* Fallible Python code (a raised exception) is `Option`/`none`.
* Library primitives that live outside this repository keep their library
  semantics: SHA-256, HMAC-SHA256 and the counter-mode KBKDF of the
  `cryptography` package are implemented concretely below; AES-GCM/AES-CBC
  block decryption and `json.loads` are passed in as explicit function
  parameters, since the embedded code only forwards bytes to them.
* `os.urandom` draws are threaded through as an explicit `rand` argument.
-/

set_option autoImplicit false

/-- Truncate a natural number to an unsigned 32-bit word. -/
def w32 (x : Nat) : Nat := x % 4294967296

/-- Truncate a natural number to an unsigned 64-bit word. -/
def w64 (x : Nat) : Nat := x % 18446744073709551616

/-- Big-endian byte string of `x`, exactly `len` bytes (`int.to_bytes(len, 'big')`
truncated modulo `256 ^ len`). -/
def natToBytesBE (x : Nat) : Nat → List Nat
  | 0 => []
  | n + 1 => natToBytesBE (x / 256) n ++ [x % 256]

/-- Interpret a byte string as a big-endian natural number
(`int.from_bytes(bs, 'big')`). -/
def fromBytesBE : List Nat → Nat
  | [] => 0
  | b :: t => b * 256 ^ t.length + fromBytesBE t

/-- ASCII bytes of a string (`s.encode('utf-8')` for the ASCII strings the
claims exercise). -/
def strBytes (s : String) : List Nat := s.data.map Char.toNat

/-- Rotate a 32-bit word right by `n` bits. -/
def rotr32 (n x : Nat) : Nat := ((x >>> n) ||| (x <<< (32 - n))) % 4294967296

/-- SHA-256 message schedule function σ0. -/
def ssig0 (x : Nat) : Nat := (rotr32 7 x) ^^^ (rotr32 18 x) ^^^ (x >>> 3)

/-- SHA-256 message schedule function σ1. -/
def ssig1 (x : Nat) : Nat := (rotr32 17 x) ^^^ (rotr32 19 x) ^^^ (x >>> 10)

/-- SHA-256 compression function Σ0. -/
def bsig0 (x : Nat) : Nat := (rotr32 2 x) ^^^ (rotr32 13 x) ^^^ (rotr32 22 x)

/-- SHA-256 compression function Σ1. -/
def bsig1 (x : Nat) : Nat := (rotr32 6 x) ^^^ (rotr32 11 x) ^^^ (rotr32 25 x)

/-- SHA-256 choice function. -/
def chFn (x y z : Nat) : Nat := (x &&& y) ^^^ ((x ^^^ 4294967295) &&& z)

/-- SHA-256 majority function. -/
def majFn (x y z : Nat) : Nat := (x &&& y) ^^^ (x &&& z) ^^^ (y &&& z)

/-- The 64 SHA-256 round constants. -/
def sha256K : List Nat :=
  [1116352408, 1899447441, 3049323471, 3921009573, 961987163,
   1508970993, 2453635748, 2870763221, 3624381080, 310598401,
   607225278, 1426881987, 1925078388, 2162078206, 2614888103,
   3248222580, 3835390401, 4022224774, 264347078, 604807628,
   770255983, 1249150122, 1555081692, 1996064986, 2554220882,
   2821834349, 2952996808, 3210313671, 3336571891, 3584528711,
   113926993, 338241895, 666307205, 773529912, 1294757372,
   1396182291, 1695183700, 1986661051, 2177026350, 2456956037,
   2730485921, 2820302411, 3259730800, 3345764771, 3516065817,
   3600352804, 4094571909, 275423344, 430227734, 506948616,
   659060556, 883997877, 958139571, 1322822218, 1537002063,
   1747873779, 1955562222, 2024104815, 2227730452, 2361852424,
   2428436474, 2756734187, 3204031479, 3329325298]

/-- Running SHA-256 state: eight 32-bit words. -/
structure H8 where
  a : Nat
  b : Nat
  c : Nat
  d : Nat
  e : Nat
  f : Nat
  g : Nat
  h : Nat

/-- SHA-256 initial hash value. -/
def sha256H0 : H8 :=
  ⟨1779033703, 3144134277, 1013904242, 2773480762,
   1359893119, 2600822924, 528734635, 1541459225⟩

/-- Group a byte string into big-endian 32-bit words (leftover bytes dropped;
inputs are always a multiple of four here). -/
def bytesToWordsBE : List Nat → List Nat
  | b1 :: b2 :: b3 :: b4 :: rest =>
      (b1 * 16777216 + b2 * 65536 + b3 * 256 + b4) :: bytesToWordsBE rest
  | _ => []

/-- One step of the SHA-256 message-schedule extension: append word `W[i]`
for `i = ws.length`. -/
def schedStep (ws : List Nat) : List Nat :=
  let i := ws.length
  ws ++ [w32 (ssig1 (ws.getD (i - 2) 0) + ws.getD (i - 7) 0 +
              ssig0 (ws.getD (i - 15) 0) + ws.getD (i - 16) 0)]

/-- Iterate a function `n` times. -/
def iterN {α : Type} (f : α → α) : Nat → α → α
  | 0, x => x
  | n + 1, x => iterN f n (f x)

/-- Extend the 16 message words of a block to the full 64-word schedule. -/
def buildSched (ws : List Nat) : List Nat := iterN schedStep 48 ws

/-- One SHA-256 round. -/
def roundFn (st : H8) (k : Nat) (w : Nat) : H8 :=
  let t1 := w32 (st.h + bsig1 st.e + chFn st.e st.f st.g + k + w)
  let t2 := w32 (bsig0 st.a + majFn st.a st.b st.c)
  ⟨w32 (t1 + t2), st.a, st.b, st.c, w32 (st.d + t1), st.e, st.f, st.g⟩

/-- Compress one 64-byte block into the running state. -/
def compressBlock (st : H8) (block : List Nat) : H8 :=
  let ws := buildSched (bytesToWordsBE block)
  let fin := (sha256K.zip ws).foldl (fun s kw => roundFn s kw.1 kw.2) st
  ⟨w32 (st.a + fin.a), w32 (st.b + fin.b), w32 (st.c + fin.c), w32 (st.d + fin.d),
   w32 (st.e + fin.e), w32 (st.f + fin.f), w32 (st.g + fin.g), w32 (st.h + fin.h)⟩

/-- SHA-256 padding: append `0x80`, zero bytes to 56 mod 64, then the
bit length as eight big-endian bytes. -/
def sha256pad (ms : List Nat) : List Nat :=
  ms ++ [128] ++ List.replicate ((119 - ms.length % 64) % 64) 0 ++ natToBytesBE (w64 (8 * ms.length)) 8

/-- Split a byte string into 64-byte chunks, with an explicit fuel argument
for structural termination. -/
def chunks64Go : Nat → List Nat → List (List Nat)
  | 0, _ => []
  | _, [] => []
  | n + 1, l => l.take 64 :: chunks64Go n (l.drop 64)

/-- Split a byte string into 64-byte chunks. -/
def chunks64 (l : List Nat) : List (List Nat) := chunks64Go l.length l

/-- SHA-256 of a byte string, as 32 bytes. -/
def sha256 (ms : List Nat) : List Nat :=
  let st := (chunks64 (sha256pad ms)).foldl compressBlock sha256H0
  natToBytesBE st.a 4 ++ natToBytesBE st.b 4 ++ natToBytesBE st.c 4 ++ natToBytesBE st.d 4 ++
  natToBytesBE st.e 4 ++ natToBytesBE st.f 4 ++ natToBytesBE st.g 4 ++ natToBytesBE st.h 4

/-- HMAC-SHA256 (RFC 2104, block size 64). -/
def hmacSha256 (key msg : List Nat) : List Nat :=
  let kp := if key.length > 64 then sha256 key else key
  let k0 := kp ++ List.replicate (64 - kp.length) 0
  sha256 ((k0.map (fun b => b ^^^ 92)) ++ sha256 ((k0.map (fun b => b ^^^ 54)) ++ msg))

/-- Counter-mode KBKDF with HMAC-SHA256 as configured in
`Authentication.calculate_derived_key` (`auth.py` lines 629-641): label
`b"AzureAD-SecureConversation"`, 32-byte output, 4-byte big-endian counter
before the fixed data, 4-byte big-endian length field (256 bits). With a
32-byte PRF a single round is generated and truncated to 32 bytes. -/
def kbkdfDeriveKey (sessionkey context : List Nat) : List Nat :=
  let label := strBytes "AzureAD-SecureConversation"
  let fixed := label ++ [0] ++ context ++ natToBytesBE 256 4
  (hmacSha256 sessionkey (natToBytesBE 1 4 ++ fixed)).take 32

/-- Embedding of `Authentication.calculate_derived_key` (`auth.py` lines
621-642). `rand` is the `os.urandom(24)` draw used when the caller passes a
falsy context (`None` or empty bytes); the context argument `none` models
Python `None`. Returns `(context, derived_key)`. -/
def calculate_derived_key (rand sessionkey : List Nat) (context : Option (List Nat)) :
    List Nat × List Nat :=
  let ctx := match context with
    | none => rand
    | some [] => rand
    | some c => c
  (ctx, kbkdfDeriveKey sessionkey ctx)

/-- Embedding of `Authentication.calculate_derived_key_v2` (`auth.py` lines
610-619): hash the context and the JWT body with SHA-256 (the two
`digest.update` calls hash their concatenation) and hand the digest to the
v1 KDF. -/
def calculate_derived_key_v2 (rand sessionkey context jwtbody : List Nat) :
    List Nat × List Nat :=
  calculate_derived_key rand sessionkey (some (sha256 (context ++ jwtbody)))

/-- Value of a character in the standard base64 alphabet. -/
def b64Val (c : Char) : Option Nat :=
  if 65 ≤ c.toNat ∧ c.toNat ≤ 90 then some (c.toNat - 65)
  else if 97 ≤ c.toNat ∧ c.toNat ≤ 122 then some (c.toNat - 71)
  else if 48 ≤ c.toNat ∧ c.toNat ≤ 57 then some (c.toNat + 4)
  else if c = '+' then some 62
  else if c = '/' then some 63
  else none

/-- Characters `binascii.a2b_base64` keeps: the base64 alphabet and padding. -/
def b64Filter (cs : List Char) : List Char :=
  cs.filter (fun c => (b64Val c).isSome || c = '=')

/-- Decode base64 four characters at a time, with canonical `'='` padding in
the final quad only (the claims only exercise canonically padded data). -/
def b64decodeQuads : List Char → Option (List Nat)
  | [] => some []
  | [c1, c2, '=', '='] => do
      let v1 ← b64Val c1
      let v2 ← b64Val c2
      pure [4 * v1 + v2 / 16]
  | [c1, c2, c3, '='] => do
      let v1 ← b64Val c1
      let v2 ← b64Val c2
      let v3 ← b64Val c3
      pure [4 * v1 + v2 / 16, (v2 % 16) * 16 + v3 / 4]
  | c1 :: c2 :: c3 :: c4 :: rest => do
      let v1 ← b64Val c1
      let v2 ← b64Val c2
      let v3 ← b64Val c3
      let v4 ← b64Val c4
      let tl ← b64decodeQuads rest
      pure ([4 * v1 + v2 / 16, (v2 % 16) * 16 + v3 / 4, (v3 % 4) * 64 + v4] ++ tl)
  | _ => none

/-- Standard-alphabet base64 decode (`base64.b64decode`), requiring the total
length to be a multiple of four after dropping foreign characters. -/
def b64decodeStd (cs : List Char) : Option (List Nat) :=
  b64decodeQuads (b64Filter cs)

/-- Translate the URL-safe alphabet to the standard one, as
`base64.urlsafe_b64decode` does before decoding. -/
def urlsafeTr (c : Char) : Char :=
  if c = '-' then '+' else if c = '_' then '/' else c

/-- Embedding of the module-level `get_data` helper (`auth.py` lines 30-31):
`base64.urlsafe_b64decode(data + ('=' * (len(data) % 4)))`. Note the source
appends `len % 4` padding characters, not `(-len) % 4`. -/
def get_data (cs : List Char) : Option (List Nat) :=
  b64decodeStd ((cs ++ List.replicate (cs.length % 4) '=').map urlsafeTr)

/-- JSON-ish scalar values stored in the Python dicts the claims touch. -/
inductive JVal where
  | s : String → JVal
  | i : Int → JVal
deriving DecidableEq

/-- A Python dict with string keys, as an association list in insertion
order. -/
abbrev Dict : Type := List (String × JVal)

/-- Dict lookup (`d[k]` / `d.get(k)`): first binding of the key. -/
def dlookup (d : Dict) (k : String) : Option JVal :=
  match d with
  | [] => none
  | (k0, v) :: rest => if k0 = k then some v else dlookup rest k

/-- Dict assignment (`d[k] = v`): update an existing binding in place, else
append. -/
def dinsert (d : Dict) (k : String) (v : JVal) : Dict :=
  match d with
  | [] => [(k, v)]
  | (k0, v0) :: rest => if k0 = k then (k, v) :: rest else (k0, v0) :: dinsert rest k v

/-- PKCS#7 unpadding over 128-bit blocks, as `padding.PKCS7(128).unpadder()`
behaves: input must be a nonzero multiple of 16 bytes, the final byte `p`
must lie in `1..16` and the last `p` bytes must all equal `p`. -/
def pkcs7unpad (bs : List Nat) : Option (List Nat) :=
  if bs.length % 16 = 0 ∧ bs.length ≠ 0 then
    match bs.getLast? with
    | none => none
    | some p =>
      if 1 ≤ p ∧ p ≤ 16 ∧ (bs.drop (bs.length - p)).all (fun b => b = p) then
        some (bs.take (bs.length - p))
      else none
  else none

/-- Result of `decrypt_auth_response`: a parsed JSON dict (`asjson`), the
unencrypted passthrough string, or decrypted bytes. -/
inductive DecOut where
  | js : Dict → DecOut
  | str : List Char → DecOut
  | bytes : List Nat → DecOut
deriving DecidableEq

/-- ASCII bytes of a character list (`s.encode('utf-8')` for ASCII data). -/
def pyBytes (cs : List Char) : List Nat := cs.map Char.toNat

/-- Split a character list on every occurrence of a separator character,
as Python `str.split(sep)` for a single-character separator. -/
def splitSep (sep : Char) : List Char → List (List Char)
  | [] => [[]]
  | c :: t =>
    match splitSep sep t with
    | [] => [[]]
    | r :: rs => if c = sep then [] :: r :: rs else (c :: r) :: rs

/-- Embedding of `Authentication.decrypt_auth_response` (`auth.py` lines
644-678). External library calls are explicit parameters: `jsonParse` models
`json.loads` (on UTF-8 bytes, returning the dict fields the code reads),
`aesgcm key iv ct aad` models `AESGCM(key).decrypt(iv, ct, aad)` and
`aescbc key iv ct` models the AES-CBC `update`/`finalize` pair; each returns
`none` where the library raises. `rand` threads the `os.urandom` draw of
`calculate_derived_key` (unused when the header carries a nonempty `ctx`). -/
def decrypt_auth_response
    (jsonParse : List Nat → Option Dict)
    (aesgcm : List Nat → List Nat → List Nat → List Nat → Option (List Nat))
    (aescbc : List Nat → List Nat → List Nat → Option (List Nat))
    (rand : List Nat)
    (responsedata : List Char) (sessionkey : List Nat) (asjson : Bool) : Option DecOut :=
  if responsedata.take 2 = [Char.ofNat 123, '"'] then
    if asjson then (jsonParse (pyBytes responsedata)).map DecOut.js
    else some (DecOut.str responsedata)
  else
    let dataparts := splitSep '.' responsedata
    do
      let hseg ← dataparts[0]?
      let hbytes ← get_data hseg
      let headers ← jsonParse hbytes
      let ctxval ← dlookup headers "ctx"
      let ctxstr ← match ctxval with
        | JVal.s s => some s
        | JVal.i _ => none
      let ctx ← b64decodeStd ctxstr.data
      let derived_key := (calculate_derived_key rand sessionkey (some ctx)).2
      let data ← dataparts[3]?
      let iv ← dataparts[2]?
      let authtag ← dataparts[4]?
      let ivb ← get_data iv
      let depadded ←
        if ivb.length = 12 then do
          let db ← get_data data
          let tb ← get_data authtag
          aesgcm derived_key ivb (db ++ tb) (pyBytes hseg)
        else do
          let db ← get_data data
          let dec ← aescbc derived_key ivb db
          pkcs7unpad dec
      if asjson then (jsonParse depadded).map DecOut.js
      else some (DecOut.bytes depadded)

/-- Python `int(...)` applied to a digit string: optional sign followed by
decimal digits (the subset the token replies exercise). -/
def pyDigits : List Char → Option Nat
  | [] => none
  | cs =>
    if cs.all (fun c => 48 ≤ c.toNat ∧ c.toNat ≤ 57) then
      some (cs.foldl (fun a c => 10 * a + (c.toNat - 48)) 0)
    else none

/-- Python `int(v)` on the JSON scalar `v`: identity on ints, decimal parse
on strings (`ValueError`, i.e. `none`, otherwise). -/
def toIntPy : JVal → Option Int
  | JVal.i n => some n
  | JVal.s s =>
    match s.data with
    | '-' :: rest => (pyDigits rest).map (fun n => -(n : Int))
    | '+' :: rest => (pyDigits rest).map (fun n => (n : Int))
    | cs => (pyDigits cs).map (fun n => (n : Int))

/-- Claims the token code reads from the decoded JWT payload of an access
token (`tid` and `appid`; anything else is ignored by the source). -/
structure AtPayload where
  tid : Option String
  appid : Option String

/-- The `expiresOn` computation of `Authentication.tokenreply_to_tokendata`
(`auth.py` lines 1045-1048): format `expires_on` as a local time string when
the key exists, otherwise format `now + expires_in`; `fmtLocal` models
`datetime.fromtimestamp(·).strftime('%Y-%m-%d %H:%M:%S')` on an epoch
second count and `now` the epoch of `datetime.datetime.now()`. -/
def expiresOnStr (fmtLocal : Int → String) (now : Int) (tokenreply : Dict) : Option String :=
  match dlookup tokenreply "expires_on" with
  | some v => (toIntPy v).map fmtLocal
  | none =>
    match dlookup tokenreply "expires_in" with
    | some v => (toIntPy v).map (fun k => fmtLocal (now + k))
    | none => none

/-- The `translate_map` loop of `Authentication.tokenreply_to_tokendata`
(`auth.py` lines 1063-1071), in dict order: copy each of `access_token`,
`refresh_token`, `id_token`, `token_type` present in the reply to its
camel-case key. -/
def trLoop (d : Dict) (tokenreply : Dict) : Dict :=
  let d1 := match dlookup tokenreply "access_token" with
    | some v => dinsert d "accessToken" v
    | none => d
  let d2 := match dlookup tokenreply "refresh_token" with
    | some v => dinsert d1 "refreshToken" v
    | none => d1
  let d3 := match dlookup tokenreply "id_token" with
    | some v => dinsert d2 "idToken" v
    | none => d2
  match dlookup tokenreply "token_type" with
  | some v => dinsert d3 "tokenType" v
  | none => d3

/-- Dict construction of `Authentication.tokenreply_to_tokendata` before the
`translate_map` loop (`auth.py` lines 1042-1062), given the values the
source reads: `tokenType` first, then `expiresOn`, then `tenantId` when the
`tid` claim exists, then `_clientId` from the `client_id` override or the
`appid` claim. -/
def tokendataCore (tt : JVal) (eo : String) (payload : AtPayload)
    (client_id : Option String) : Dict :=
  let d1 := dinsert [("tokenType", tt)] "expiresOn" (JVal.s eo)
  let d2 := match payload.tid with
    | some t => dinsert d1 "tenantId" (JVal.s t)
    | none => d1
  match client_id with
  | some c => dinsert d2 "_clientId" (JVal.s c)
  | none =>
    match payload.appid with
    | some a => dinsert d2 "_clientId" (JVal.s a)
    | none => d2

/-- Embedding of `Authentication.tokenreply_to_tokendata` (`auth.py` lines
1037-1072). `parsePayload` models
`json.loads(base64.b64decode(seg + '=' * (len(seg) % 4)))` applied to the
middle segment of the access token, yielding the `tid`/`appid` claims the
code reads (`none` where decoding or parsing raises). A `none` result models
an uncaught exception (`KeyError` on `token_type`/`expires_in`/
`access_token`, `ValueError` on `int`, decode errors on the JWT payload). -/
def tokenreply_to_tokendata
    (parsePayload : List Char → Option AtPayload)
    (fmtLocal : Int → String) (now : Int)
    (client_id : Option String) (tokenreply : Dict) : Option Dict := do
  let tt ← dlookup tokenreply "token_type"
  let eo ← expiresOnStr fmtLocal now tokenreply
  let at0 ← dlookup tokenreply "access_token"
  let ats ← match at0 with
    | JVal.s s => some s
    | JVal.i _ => none
  let seg ← (splitSep '.' ats.data)[1]?
  let payload ← parsePayload seg
  pure (trLoop (tokendataCore tt eo payload client_id) tokenreply)

/-- Python truthiness of an optional JSON scalar: `None`, `""` and `0` are
falsy. -/
def falsyJ : Option JVal → Bool
  | none => true
  | some (JVal.s s) => s = ""
  | some (JVal.i n) => n = 0

/-- Observable outcome of `Authentication.get_bulk_enrollment_token`. -/
inductive BulkOutcome where
  | returnedFalse : BulkOutcome
  | raised : BulkOutcome
  | token : Dict → BulkOutcome
  | polling : BulkOutcome
deriving DecidableEq

/-- One iteration body of the polling loop of
`Authentication.get_bulk_enrollment_token` (`auth.py` lines 493-508),
applied to the modeled list of successive poll responses; an exhausted list
is the still-polling state. `parseRD` models `json.loads` of `resultData`;
`parsePayload`, `fmtLocal`, `now` are passed on to
`tokenreply_to_tokendata`. -/
def bulkPoll (parseRD : JVal → Option Dict)
    (parsePayload : List Char → Option AtPayload)
    (fmtLocal : Int → String) (now : Int) : List Dict → BulkOutcome
  | [] => BulkOutcome.polling
  | d :: rest =>
    let st := dlookup d "state"
    if falsyJ st then BulkOutcome.returnedFalse
    else if st = some (JVal.s "CompleteError") then
      match dlookup d "resultData" with
      | some _ => BulkOutcome.returnedFalse
      | none => BulkOutcome.raised
    else if st = some (JVal.s "CompleteSuccess") then
      match dlookup d "resultData" with
      | none => BulkOutcome.raised
      | some rv =>
        match parseRD rv with
        | none => BulkOutcome.raised
        | some tokenresult =>
          match dlookup tokenresult "id_token" with
          | none => BulkOutcome.raised
          | some idt =>
            let tokenresult2 := dinsert tokenresult "access_token" idt
            match tokenreply_to_tokendata parsePayload fmtLocal now
                (some "b90d5b8f-5503-4153-b545-b31cecfaece2") tokenresult2 with
            | some td => BulkOutcome.token td
            | none => BulkOutcome.raised
    else bulkPoll parseRD parsePayload fmtLocal now rest

/-- Embedding of `Authentication.get_bulk_enrollment_token` (`auth.py` lines
467-508) over the begin response and the successive poll responses. -/
def get_bulk_enrollment_token (parseRD : JVal → Option Dict)
    (parsePayload : List Char → Option AtPayload)
    (fmtLocal : Int → String) (now : Int)
    (begindata : Dict) (polls : List Dict) : BulkOutcome :=
  let st := dlookup begindata "state"
  if falsyJ st then BulkOutcome.returnedFalse
  else if st = some (JVal.s "CompleteError") then
    match dlookup begindata "resultData" with
    | some _ => BulkOutcome.returnedFalse
    | none => BulkOutcome.raised
  else if falsyJ (dlookup begindata "flowToken") then BulkOutcome.returnedFalse
  else bulkPoll parseRD parsePayload fmtLocal now polls

/-- ASCII lowercase of one character (`str.lower` on the ASCII data the
claims exercise). -/
def lowerChar (c : Char) : Char :=
  if 65 ≤ c.toNat ∧ c.toNat ≤ 90 then Char.ofNat (c.toNat + 32) else c

/-- ASCII lowercase of a character list. -/
def toLowerL (cs : List Char) : List Char := cs.map lowerChar

/-- Whether `needle` is an initial run of `hay`. -/
def leadsWith : List Char → List Char → Bool
  | [], _ => true
  | _ :: _, [] => false
  | a :: as, b :: bs => a = b && leadsWith as bs

/-- Python's substring test `needle in hay`. -/
def pyContains : List Char → List Char → Bool
  | [], needle => needle.isEmpty
  | c :: t, needle => leadsWith needle (c :: t) || pyContains t needle

/-- Characters of a list strictly before the first occurrence of `sep`. -/
def takeUntil (sep : Char) : List Char → List Char
  | [] => []
  | c :: t => if c = sep then [] else c :: takeUntil sep t

/-- Characters strictly after the first occurrence of `sep` (empty when
`sep` is absent). -/
def afterFirst (sep : Char) : List Char → List Char
  | [] => []
  | c :: t => if c = sep then t else afterFirst sep t

/-- Query portion of a URL as `urllib.parse.urlparse(u).query` computes it
for the URLs the claims exercise: drop the fragment after the first `#`,
then take what follows the first `?`. -/
def urlQuery (u : List Char) : List Char := afterFirst '?' (takeUntil '#' u)

/-- Value of a hex digit. -/
def hexVal (c : Char) : Option Nat :=
  if 48 ≤ c.toNat ∧ c.toNat ≤ 57 then some (c.toNat - 48)
  else if 97 ≤ c.toNat ∧ c.toNat ≤ 102 then some (c.toNat - 87)
  else if 65 ≤ c.toNat ∧ c.toNat ≤ 70 then some (c.toNat - 55)
  else none

/-- `urllib.parse.unquote_plus` restricted to ASCII percent escapes: `+`
becomes a space and `%XX` decodes to the character `XX`. -/
def pyUnquotePlus : List Char → List Char
  | [] => []
  | '+' :: t => ' ' :: pyUnquotePlus t
  | '%' :: a :: b :: t =>
    match hexVal a, hexVal b with
    | some x, some y => Char.ofNat (16 * x + y) :: pyUnquotePlus t
    | _, _ => '%' :: pyUnquotePlus (a :: b :: t)
  | c :: t => c :: pyUnquotePlus t

/-- Rejoin with `=` the pieces `str.split('=')` produced, mirroring that
`urllib.parse.parse_qsl` partitions each field at its first `=` only. -/
def joinEq : List (List Char) → List Char
  | [] => []
  | [p] => p
  | p :: ps => p ++ '=' :: joinEq ps

/-- One `name=value` field of a query string as `urllib.parse.parse_qs`
keeps it with default arguments: fields without `=` or with an empty value
are dropped, name and value are unquoted. -/
def fieldKV (f : List Char) : Option (List Char × List Char) :=
  match splitSep '=' f with
  | k :: v1 :: vrest =>
    let v := joinEq (v1 :: vrest)
    if v = [] then none else some (pyUnquotePlus k, pyUnquotePlus v)
  | _ => none

/-- First value of the given parameter in a query string
(`parse_qs(q)[k][0]`, `none` where the lookup raises `KeyError`). -/
def firstQueryParam (q : List Char) (k : List Char) : Option (List Char) :=
  ((splitSep '&' q).filterMap fieldKV).lookup k

/-- Observable outcome of the authorize-response handling in
`Authentication.authenticate_with_prt_cookie`. -/
inductive PrtCookieOutcome where
  | code : List Char → PrtCookieOutcome
  | raised : PrtCookieOutcome
  | fallback : PrtCookieOutcome
deriving DecidableEq

/-- Embedding of the authorize-response dispatch of
`Authentication.authenticate_with_prt_cookie` (`auth.py` lines 858-864):
when the response status is 302 and the lowercased requested
`redirect_uri` occurs inside the lowercased `Location` header (Python
`in`), the `code` query parameter of the `Location` URL is extracted and
returned or redeemed (`.code`; a missing `code` parameter raises
`KeyError`); every other response falls through to the nonce-refresh and
error handling (`.fallback`). -/
def authenticate_with_prt_cookie_response (status : Nat) (location redirect_uri : List Char) :
    PrtCookieOutcome :=
  if status = 302 ∧ pyContains (toLowerL location) (toLowerL redirect_uri) = true then
    match firstQueryParam (urlQuery location) ['c', 'o', 'd', 'e'] with
    | some c => PrtCookieOutcome.code c
    | none => PrtCookieOutcome.raised
  else PrtCookieOutcome.fallback

/-- Number of bits of a natural number, with a fuel argument for structural
termination (`x` itself always suffices as fuel). -/
def bitLenGo : Nat → Nat → Nat
  | 0, _ => 0
  | fuel + 1, x => if x = 0 then 0 else bitLenGo fuel (x / 2) + 1

/-- Number of bits of a natural number (`int.bit_length()`). -/
def bitLength (x : Nat) : Nat := bitLenGo x x

/-- Minimum-length big-endian byte string of `x`
(`x.to_bytes((x.bit_length() + 7) // 8, byteorder='big')`). -/
def minBytesBE (x : Nat) : List Nat := natToBytesBE x ((bitLength x + 7) / 8)

/-- Four little-endian bytes of a 32-bit value (`struct.pack('<L', x)`). -/
def u32le (x : Nat) : List Nat :=
  [x % 256, x / 256 % 256, x / 65536 % 256, x / 16777216 % 256]

/-- Embedding of `DeviceAuthentication.create_pubkey_blob_from_key`
(`deviceauth.py` lines 275-298) on the RSA public numbers `(e, n)`:
`b'RSA1'` (bytes 82, 83, 65, 49), then `struct.pack('<L', ·)` of the key
size in bits (`pubkey.key_size`, the bit length of the modulus), the
exponent length, the modulus length and two zero words, then the
minimum-length big-endian exponent and modulus. -/
def create_pubkey_blob_from_key (e n : Nat) : List Nat :=
  [82, 83, 65, 49] ++ u32le (bitLength n) ++ u32le (minBytesBE e).length ++
    u32le (minBytesBE n).length ++ u32le 0 ++ u32le 0 ++ minBytesBE e ++ minBytesBE n

/-- Little-endian byte-string value. -/
def fromBytesLE (bs : List Nat) : Nat := fromBytesBE bs.reverse

/-- Reconstruction of the RSA public numbers from a `BCRYPT_RSAKEY_BLOB`
public blob, following the layout the spec gives for the CNG `RSA1` blob:
after the magic and the key-size word, read the exponent and modulus
lengths from the header and the big-endian exponent and modulus from the
payload. -/
def parse_pubkey_blob (blob : List Nat) : Option (Nat × Nat) :=
  match blob with
  | m1 :: m2 :: m3 :: m4 :: _k1 :: _k2 :: _k3 :: _k4 ::
    e1 :: e2 :: e3 :: e4 :: n1 :: n2 :: n3 :: n4 ::
    z1 :: z2 :: z3 :: z4 :: z5 :: z6 :: z7 :: z8 :: rest =>
    if [m1, m2, m3, m4] = [82, 83, 65, 49] ∧ [z1, z2, z3, z4, z5, z6, z7, z8] = [0, 0, 0, 0, 0, 0, 0, 0] then
      let elen := fromBytesLE [e1, e2, e3, e4]
      let nlen := fromBytesLE [n1, n2, n3, n4]
      if rest.length = elen + nlen then
        some (fromBytesBE (rest.take elen), fromBytesBE (rest.drop elen))
      else none
    else none
  | _ => none

theorem natToBytesBE_length (x n : Nat) : (natToBytesBE x n).length = n := by
  induction n generalizing x with
  | zero => rfl
  | succ n ih => simp [natToBytesBE, ih]

theorem sha256_length (ms : List Nat) : (sha256 ms).length = 32 := by
  simp [sha256, natToBytesBE_length]

theorem sha256_ne_nil (ms : List Nat) : sha256 ms ≠ [] := by
  intro h
  have h2 := sha256_length ms
  rw [h] at h2
  simp at h2

theorem hmacSha256_length (k m : List Nat) : (hmacSha256 k m).length = 32 := by
  simp [hmacSha256, sha256_length]

theorem kbkdfDeriveKey_length (sk ctx : List Nat) : (kbkdfDeriveKey sk ctx).length = 32 := by
  simp [kbkdfDeriveKey, hmacSha256_length]

theorem dlookup_dinsert_ne (d : Dict) (k k2 : String) (v : JVal) (h : k2 ≠ k) :
    dlookup (dinsert d k v) k2 = dlookup d k2 := by
  have hne : ¬ k = k2 := fun e => h e.symm
  induction d with
  | nil => simp [dinsert, dlookup, hne]
  | cons p rest ih =>
    obtain ⟨k0, v0⟩ := p
    by_cases hk : k0 = k
    · subst hk
      simp [dinsert, dlookup, hne]
    · simp [dinsert, dlookup, hk, ih]

theorem leadsWith_iff (n h : List Char) : leadsWith n h = true ↔ ∃ post, h = n ++ post := by
  induction n generalizing h with
  | nil =>
    simp only [leadsWith, List.nil_append, true_iff]
    exact ⟨h, rfl⟩
  | cons a as ih =>
    cases h with
    | nil => simp [leadsWith]
    | cons b bs =>
      simp only [leadsWith, Bool.and_eq_true, decide_eq_true_eq, ih, List.cons_append,
        List.cons.injEq]
      constructor
      · rintro ⟨rfl, post, rfl⟩
        exact ⟨post, rfl, rfl⟩
      · rintro ⟨post, rfl, rfl⟩
        exact ⟨rfl, post, rfl⟩

theorem pyContains_iff (h n : List Char) :
    pyContains h n = true ↔ ∃ pre post, h = pre ++ n ++ post := by
  induction h with
  | nil =>
    simp only [pyContains, List.isEmpty_iff]
    constructor
    · rintro rfl
      exact ⟨[], [], rfl⟩
    · rintro ⟨pre, post, hp⟩
      rcases List.append_eq_nil.mp hp.symm with ⟨h1, h2⟩
      rcases List.append_eq_nil.mp h1 with ⟨_, h3⟩
      exact h3
  | cons c t ih =>
    simp only [pyContains, Bool.or_eq_true, leadsWith_iff, ih]
    constructor
    · rintro (⟨post, hp⟩ | ⟨pre, post, rfl⟩)
      · exact ⟨[], post, by simp [hp]⟩
      · exact ⟨c :: pre, post, rfl⟩
    · rintro ⟨pre, post, hp⟩
      cases pre with
      | nil =>
        left
        exact ⟨post, by simpa using hp⟩
      | cons x xs =>
        right
        rw [List.cons_append, List.cons_append, List.cons.injEq] at hp
        exact ⟨xs, post, hp.2⟩

theorem fromBytesBE_append_one (l : List Nat) (b : Nat) :
    fromBytesBE (l ++ [b]) = 256 * fromBytesBE l + b := by
  induction l with
  | nil => simp [fromBytesBE]
  | cons c t ih =>
    have hl : (t ++ [b]).length = t.length + 1 := by simp
    simp only [List.cons_append, fromBytesBE, List.append_eq, ih, hl, pow_succ]
    ring

theorem fromBytesBE_natToBytesBE (n x : Nat) (h : x < 256 ^ n) :
    fromBytesBE (natToBytesBE x n) = x := by
  induction n generalizing x with
  | zero =>
    simp only [natToBytesBE, fromBytesBE]
    simp only [pow_zero] at h
    omega
  | succ n ih =>
    rw [natToBytesBE, fromBytesBE_append_one, ih (x / 256) ?hlt]
    · omega
    case hlt =>
      apply Nat.div_lt_of_lt_mul
      rw [pow_succ] at h
      omega

theorem lt_two_pow_bitLenGo (fuel : Nat) : ∀ x : Nat, x ≤ fuel → x < 2 ^ bitLenGo fuel x := by
  induction fuel with
  | zero =>
    intro x hx
    simp only [bitLenGo, pow_zero]
    omega
  | succ fuel ih =>
    intro x hx
    by_cases h0 : x = 0
    · simp [bitLenGo, h0]
    · have hdiv : x / 2 ≤ fuel := by omega
      have := ih (x / 2) hdiv
      simp only [bitLenGo, h0, if_false, pow_succ]
      omega

theorem lt_pow_byteLen (x : Nat) : x < 256 ^ ((bitLength x + 7) / 8) := by
  by_cases h0 : x = 0
  · subst h0
    simp [bitLength, bitLenGo]
  · have h1 : x < 2 ^ bitLength x := lt_two_pow_bitLenGo x x le_rfl
    have h2 : bitLength x ≤ 8 * ((bitLength x + 7) / 8) := by omega
    calc x < 2 ^ bitLength x := h1
      _ ≤ 2 ^ (8 * ((bitLength x + 7) / 8)) := Nat.pow_le_pow_right (by norm_num) h2
      _ = 256 ^ ((bitLength x + 7) / 8) := by
          rw [Nat.pow_mul]

theorem fromBytesBE_minBytesBE (x : Nat) : fromBytesBE (minBytesBE x) = x :=
  fromBytesBE_natToBytesBE _ x (lt_pow_byteLen x)

theorem take_len_append {α : Type} (a b : List α) : (a ++ b).take a.length = a := by
  induction a with
  | nil => simp
  | cons c t ih => simp [ih]

theorem drop_len_append {α : Type} (a b : List α) : (a ++ b).drop a.length = b := by
  induction a with
  | nil => simp
  | cons c t ih => simp [ih]

theorem fromBytesLE_u32le (x : Nat) : fromBytesLE (u32le x) = x % 4294967296 := by
  simp only [fromBytesLE, u32le, List.reverse_cons, List.reverse_nil, List.nil_append,
    List.cons_append, fromBytesBE, List.length_nil, List.length_cons, List.length_append]
  norm_num
  omega

theorem fromBytesLE_four (x : Nat) :
    fromBytesLE [x % 256, x / 256 % 256, x / 65536 % 256, x / 16777216 % 256] = x % 4294967296 := by
  simp only [fromBytesLE, List.reverse_cons, List.reverse_nil, List.nil_append,
    List.cons_append, fromBytesBE, List.length_nil, List.length_cons, List.length_append]
  norm_num
  omega

/-- C1: for every random draw, session key, context and JWT body, the v2
derived-key computation `calculate_derived_key_v2` returns exactly the result
of the v1 KDF `calculate_derived_key` applied to the SHA-256 hash of the
context concatenated with the JWT body, and the derived key is 32 bytes. -/
theorem kdf_v2_eq_v1_sha256 (r r2 sk ctx body : List Nat) :
    calculate_derived_key_v2 r sk ctx body
      = calculate_derived_key r2 sk (some (sha256 (ctx ++ body)))
    ∧ (calculate_derived_key_v2 r sk ctx body).2.length = 32 := by
  constructor
  · unfold calculate_derived_key_v2 calculate_derived_key
    cases hx : sha256 (ctx ++ body) with
    | nil => exact absurd hx (sha256_ne_nil _)
    | cons a t => simp
  · unfold calculate_derived_key_v2 calculate_derived_key
    cases hx : sha256 (ctx ++ body) with
    | nil => exact absurd hx (sha256_ne_nil _)
    | cons a t => simpa using kbkdfDeriveKey_length sk (a :: t)

/-- C9 (amended): for every session key and every non-empty context, the v1
KDF `calculate_derived_key` is deterministic — the result does not depend on
the random draw, the returned context is the given one — and the derived key
is exactly 32 bytes. (For an empty or absent context the code draws a fresh
random context, so determinism fails there; see the counterexample.) -/
theorem kdf_v1_deterministic (r r2 sk ctx : List Nat) (h : ctx ≠ []) :
    calculate_derived_key r sk (some ctx) = calculate_derived_key r2 sk (some ctx)
    ∧ (calculate_derived_key r sk (some ctx)).1 = ctx
    ∧ ((calculate_derived_key r sk (some ctx)).2).length = 32 := by
  cases ctx with
  | nil => exact absurd rfl h
  | cons a t =>
    refine ⟨rfl, rfl, ?_⟩
    simpa [calculate_derived_key] using kbkdfDeriveKey_length sk (a :: t)

/-- C9 counterexample: with an empty context the v1 KDF returns the random
draw as the context, so two runs on identical inputs differ. -/
theorem kdf_v1_empty_cex :
    (calculate_derived_key [1] [9] (some [])).1 ≠ (calculate_derived_key [2] [9] (some [])).1 := by
  decide

/-- C8: for every RSA public key given by its public numbers, the produced
blob is the ASCII bytes of RSA1 followed by four-byte little-endian key size
in bits, exponent length, modulus length and two zero words, followed by the
minimum-length big-endian exponent and modulus; and reconstructing the public
numbers from the blob yields the original pair. -/
theorem pubkey_blob_roundtrip (e n : Nat)
    (he : (minBytesBE e).length < 4294967296) (hn : (minBytesBE n).length < 4294967296) :
    create_pubkey_blob_from_key e n =
      [82, 83, 65, 49] ++ u32le (bitLength n) ++ u32le (minBytesBE e).length ++
        u32le (minBytesBE n).length ++ u32le 0 ++ u32le 0 ++ minBytesBE e ++ minBytesBE n
    ∧ parse_pubkey_blob (create_pubkey_blob_from_key e n) = some (e, n) := by
  refine ⟨rfl, ?_⟩
  have hblob : create_pubkey_blob_from_key e n =
      82 :: 83 :: 65 :: 49 ::
      (bitLength n % 256) :: (bitLength n / 256 % 256) :: (bitLength n / 65536 % 256) ::
      (bitLength n / 16777216 % 256) ::
      ((minBytesBE e).length % 256) :: ((minBytesBE e).length / 256 % 256) ::
      ((minBytesBE e).length / 65536 % 256) :: ((minBytesBE e).length / 16777216 % 256) ::
      ((minBytesBE n).length % 256) :: ((minBytesBE n).length / 256 % 256) ::
      ((minBytesBE n).length / 65536 % 256) :: ((minBytesBE n).length / 16777216 % 256) ::
      0 :: 0 :: 0 :: 0 :: 0 :: 0 :: 0 :: 0 ::
      (minBytesBE e ++ minBytesBE n) := by
    simp [create_pubkey_blob_from_key, u32le]
  rw [hblob]
  simp only [parse_pubkey_blob]
  rw [if_pos (by simp)]
  simp only [fromBytesLE_four]
  rw [Nat.mod_eq_of_lt he, Nat.mod_eq_of_lt hn]
  rw [if_pos (by simp)]
  rw [take_len_append, drop_len_append, fromBytesBE_minBytesBE, fromBytesBE_minBytesBE]

/-- C10: for every input string starting with the two characters left brace
and double quote, `decrypt_auth_response` returns the input untouched — the
result does not depend on the session key, the random draw or the cipher
primitives; it is the JSON-parsed value when `asjson` is true and the string
itself otherwise. -/
theorem decrypt_passthrough
    (jp : List Nat → Option Dict)
    (g g2 : List Nat → List Nat → List Nat → List Nat → Option (List Nat))
    (cb cb2 : List Nat → List Nat → List Nat → Option (List Nat))
    (r r2 : List Nat) (s : List Char) (sk sk2 : List Nat) (aj : Bool)
    (h : s.take 2 = [Char.ofNat 123, '"']) :
    decrypt_auth_response jp g cb r s sk aj = decrypt_auth_response jp g2 cb2 r2 s sk2 aj
    ∧ (aj = true → decrypt_auth_response jp g cb r s sk aj = (jp (pyBytes s)).map DecOut.js)
    ∧ (aj = false → decrypt_auth_response jp g cb r s sk aj = some (DecOut.str s)) := by
  unfold decrypt_auth_response
  rw [if_pos h, if_pos h]
  cases aj <;> simp

/-- C3: for every JWE-framed response accepted by `decrypt_auth_response`,
when the base64url-decoded iv segment is exactly 12 bytes the ciphertext with
the auth-tag segment appended is decrypted with AES-GCM under the key derived
from the ctx header field, with the raw base64url header segment as ASCII
bytes as the additional authenticated data; for any other iv length the
ciphertext alone is decrypted with AES-CBC followed by PKCS#7 unpadding, and
the auth-tag segment is ignored (a response differing only in that segment
decrypts identically). -/
theorem decrypt_jwe_dispatch
    (jp : List Nat → Option Dict)
    (g : List Nat → List Nat → List Nat → List Nat → Option (List Nat))
    (cb : List Nat → List Nat → List Nat → Option (List Nat))
    (r : List Nat) (s sB : List Char) (sk : List Nat) (aj : Bool)
    (s0 s1 s2 s3 s4 s4B : List Char)
    (hn : s.take 2 ≠ [Char.ofNat 123, '"'])
    (hsplit : splitSep '.' s = [s0, s1, s2, s3, s4])
    (hb : List Nat) (hhb : get_data s0 = some hb)
    (hd : Dict) (hjp : jp hb = some hd)
    (cs : String) (hctx : dlookup hd "ctx" = some (JVal.s cs))
    (ctx : List Nat) (hb64 : b64decodeStd cs.data = some ctx)
    (ivb : List Nat) (hiv : get_data s2 = some ivb)
    (db : List Nat) (hdb : get_data s3 = some db)
    (tb : List Nat) (htb : get_data s4 = some tb)
    (hnB : sB.take 2 ≠ [Char.ofNat 123, '"'])
    (hsplitB : splitSep '.' sB = [s0, s1, s2, s3, s4B])
    (tbB : List Nat) (htbB : get_data s4B = some tbB) :
    (ivb.length = 12 →
      decrypt_auth_response jp g cb r s sk aj =
        (g (calculate_derived_key r sk (some ctx)).2 ivb (db ++ tb) (pyBytes s0)).bind
          (fun dp => if aj then (jp dp).map DecOut.js else some (DecOut.bytes dp)))
    ∧ (ivb.length ≠ 12 →
      decrypt_auth_response jp g cb r s sk aj =
        ((cb (calculate_derived_key r sk (some ctx)).2 ivb db).bind pkcs7unpad).bind
          (fun dp => if aj then (jp dp).map DecOut.js else some (DecOut.bytes dp))
      ∧ decrypt_auth_response jp g cb r sB sk aj = decrypt_auth_response jp g cb r s sk aj) := by
  have red : ∀ (sx : List Char) (s4x : List Char) (tbx : List Nat),
      sx.take 2 ≠ [Char.ofNat 123, '"'] →
      splitSep '.' sx = [s0, s1, s2, s3, s4x] →
      get_data s4x = some tbx →
      decrypt_auth_response jp g cb r sx sk aj =
        if ivb.length = 12 then
          (g (calculate_derived_key r sk (some ctx)).2 ivb (db ++ tbx) (pyBytes s0)).bind
            (fun dp => if aj then (jp dp).map DecOut.js else some (DecOut.bytes dp))
        else
          ((cb (calculate_derived_key r sk (some ctx)).2 ivb db).bind pkcs7unpad).bind
            (fun dp => if aj then (jp dp).map DecOut.js else some (DecOut.bytes dp)) := by
    intro sx s4x tbx hnx hsx htx
    unfold decrypt_auth_response
    rw [if_neg hnx]
    rw [hsx]
    have e0 : (([s0, s1, s2, s3, s4x] : List (List Char)))[0]? = some s0 := rfl
    have e2 : (([s0, s1, s2, s3, s4x] : List (List Char)))[2]? = some s2 := rfl
    have e3 : (([s0, s1, s2, s3, s4x] : List (List Char)))[3]? = some s3 := rfl
    have e4 : (([s0, s1, s2, s3, s4x] : List (List Char)))[4]? = some s4x := rfl
    simp only [Option.bind_eq_bind, e0, e2, e3, e4, hhb, hjp, hctx, hb64, hiv, hdb, htx,
      Option.some_bind, Option.none_bind, Option.bind_assoc]
  constructor
  · intro h12
    rw [red s s4 tb hn hsplit htb, if_pos h12]
  · intro h12
    constructor
    · rw [red s s4 tb hn hsplit htb, if_neg h12]
    · rw [red s s4 tb hn hsplit htb, red sB s4B tbB hnB hsplitB htbB,
        if_neg h12, if_neg h12]

/-- C2 (amended): in `authenticate_with_prt_cookie`, the authorization-code
path (extracting `code` from the Location query string and returning or
redeeming it) is taken exactly when the response status is 302 and the
lowercased requested redirect_uri occurs as a substring anywhere inside the
lowercased Location header — Python `in`, not a begins-with test; when the
path is taken, the first `code` query parameter of Location is the one
used. -/
theorem prt_cookie_code_path_iff (status : Nat) (loc ru : List Char) :
    (authenticate_with_prt_cookie_response status loc ru ≠ PrtCookieOutcome.fallback ↔
      status = 302 ∧ ∃ pre post, toLowerL loc = pre ++ toLowerL ru ++ post)
    ∧ (∀ c : List Char,
        status = 302 →
        (∃ pre post, toLowerL loc = pre ++ toLowerL ru ++ post) →
        firstQueryParam (urlQuery loc) ['c', 'o', 'd', 'e'] = some c →
        authenticate_with_prt_cookie_response status loc ru = PrtCookieOutcome.code c) := by
  have hiff := pyContains_iff (toLowerL loc) (toLowerL ru)
  constructor
  · by_cases hs : status = 302 ∧ pyContains (toLowerL loc) (toLowerL ru) = true
    · obtain ⟨p, q, hpq⟩ := hiff.mp hs.2
      have hrhs : status = 302 ∧ ∃ pre post, toLowerL loc = pre ++ toLowerL ru ++ post :=
        ⟨hs.1, p, q, hpq⟩
      unfold authenticate_with_prt_cookie_response
      rw [if_pos hs]
      cases hq : firstQueryParam (urlQuery loc) ['c', 'o', 'd', 'e'] with
      | none => simpa using hrhs
      | some c => simpa using hrhs
    · unfold authenticate_with_prt_cookie_response
      rw [if_neg hs]
      simp only [ne_eq, not_true_eq_false, false_iff]
      rintro ⟨h302, hex⟩
      exact hs ⟨h302, hiff.mpr hex⟩
  · intro c h302 hex hq
    unfold authenticate_with_prt_cookie_response
    rw [if_pos ⟨h302, hiff.mpr hex⟩, hq]

/-- C2 counterexample: a 302 whose Location does not begin with the
requested redirect_uri (not even case-insensitively) but merely contains it
in a query parameter still takes the code path and extracts the attacker-side
`code` value, contradicting the claimed begins-with condition. -/
theorem prt_cookie_cex :
    authenticate_with_prt_cookie_response 302
        "https://evil/x?u=https://r/nc&code=abc".data "https://r/nc".data
      = PrtCookieOutcome.code "abc".data
    ∧ leadsWith "https://r/nc".data "https://evil/x?u=https://r/nc&code=abc".data = false
    ∧ leadsWith (toLowerL "https://r/nc".data)
        (toLowerL "https://evil/x?u=https://r/nc&code=abc".data) = false := by
  decide

theorem dlookup_dinsert_self (d : Dict) (k : String) (v : JVal) :
    dlookup (dinsert d k v) k = some v := by
  induction d with
  | nil => simp [dinsert, dlookup]
  | cons p rest ih =>
    obtain ⟨k0, v0⟩ := p
    by_cases hk : k0 = k
    · subst hk
      simp [dinsert, dlookup]
    · simp [dinsert, dlookup, hk, ih]

theorem trLoop_lookup_other (d reply : Dict) (k : String)
    (h1 : k ≠ "accessToken") (h2 : k ≠ "refreshToken")
    (h3 : k ≠ "idToken") (h4 : k ≠ "tokenType") :
    dlookup (trLoop d reply) k = dlookup d k := by
  unfold trLoop
  cases dlookup reply "access_token" <;> cases dlookup reply "refresh_token" <;>
    cases dlookup reply "id_token" <;> cases dlookup reply "token_type" <;>
    simp [dlookup_dinsert_ne _ _ _ _ h1, dlookup_dinsert_ne _ _ _ _ h2,
      dlookup_dinsert_ne _ _ _ _ h3, dlookup_dinsert_ne _ _ _ _ h4]

theorem tokendataCore_expiresOn (tt : JVal) (eo : String) (payload : AtPayload)
    (cid : Option String) :
    dlookup (tokendataCore tt eo payload cid) "expiresOn" = some (JVal.s eo) := by
  unfold tokendataCore
  rcases payload with ⟨tid, appid⟩
  cases tid <;> cases cid <;> cases appid <;>
    simp [dlookup_dinsert_self, dlookup_dinsert_ne, dinsert, dlookup]

theorem tokendataCore_token_type (tt : JVal) (eo : String) (payload : AtPayload)
    (cid : Option String) :
    dlookup (tokendataCore tt eo payload cid) "token_type" = none := by
  unfold tokendataCore
  rcases payload with ⟨tid, appid⟩
  cases tid <;> cases cid <;> cases appid <;>
    simp [dlookup_dinsert_ne, dinsert, dlookup]

theorem tokenreply_to_tokendata_some (pp : List Char → Option AtPayload)
    (fmt : Int → String) (now : Int) (cid : Option String) (reply out : Dict)
    (h : tokenreply_to_tokendata pp fmt now cid reply = some out) :
    ∃ tt eo ats seg payload,
      dlookup reply "token_type" = some tt ∧
      expiresOnStr fmt now reply = some eo ∧
      dlookup reply "access_token" = some (JVal.s ats) ∧
      (splitSep '.' ats.data)[1]? = some seg ∧
      pp seg = some payload ∧
      out = trLoop (tokendataCore tt eo payload cid) reply := by
  unfold tokenreply_to_tokendata at h
  simp only [Option.bind_eq_bind] at h
  cases htt : dlookup reply "token_type" with
  | none => rw [htt] at h; simp at h
  | some tt =>
  rw [htt] at h
  simp only [Option.some_bind] at h
  cases heo : expiresOnStr fmt now reply with
  | none => rw [heo] at h; simp at h
  | some eo =>
  rw [heo] at h
  simp only [Option.some_bind] at h
  cases hat : dlookup reply "access_token" with
  | none => rw [hat] at h; simp at h
  | some at0 =>
  rw [hat] at h
  simp only [Option.some_bind] at h
  cases at0 with
  | i m => simp at h
  | s ats =>
  simp only [Option.some_bind] at h
  cases hseg : (splitSep '.' ats.data)[1]? with
  | none => rw [hseg] at h; simp at h
  | some seg =>
  rw [hseg] at h
  simp only [Option.some_bind] at h
  cases hpl : pp seg with
  | none => rw [hpl] at h; simp at h
  | some payload =>
  rw [hpl] at h
  simp only [Option.some_bind, pure, Option.some.injEq] at h
  exact ⟨tt, eo, ats, seg, payload, rfl, rfl, rfl, hseg, hpl, h.symm⟩

theorem trLoop_accessToken (d reply : Dict) (v : JVal)
    (h : dlookup reply "access_token" = some v) :
    dlookup (trLoop d reply) "accessToken" = some v := by
  unfold trLoop
  rw [h]
  cases dlookup reply "refresh_token" <;> cases dlookup reply "id_token" <;>
    cases dlookup reply "token_type" <;>
    simp [dlookup_dinsert_self, dlookup_dinsert_ne]

theorem trLoop_refreshToken (d reply : Dict) (v : JVal)
    (h : dlookup reply "refresh_token" = some v) :
    dlookup (trLoop d reply) "refreshToken" = some v := by
  unfold trLoop
  rw [h]
  cases dlookup reply "access_token" <;> cases dlookup reply "id_token" <;>
    cases dlookup reply "token_type" <;>
    simp [dlookup_dinsert_self, dlookup_dinsert_ne]

theorem trLoop_idToken (d reply : Dict) (v : JVal)
    (h : dlookup reply "id_token" = some v) :
    dlookup (trLoop d reply) "idToken" = some v := by
  unfold trLoop
  rw [h]
  cases dlookup reply "access_token" <;> cases dlookup reply "refresh_token" <;>
    cases dlookup reply "token_type" <;>
    simp [dlookup_dinsert_self, dlookup_dinsert_ne]

theorem trLoop_tokenType (d reply : Dict) (v : JVal)
    (h : dlookup reply "token_type" = some v) :
    dlookup (trLoop d reply) "tokenType" = some v := by
  unfold trLoop
  rw [h]
  cases dlookup reply "access_token" <;> cases dlookup reply "refresh_token" <;>
    cases dlookup reply "id_token" <;>
    simp [dlookup_dinsert_self, dlookup_dinsert_ne]

/-- C4: for every reply accepted by `tokenreply_to_tokendata`, the
`expiresOn` field of the normalized record is the local datetime string of
the `expires_on` epoch when that key is present, and of now plus `expires_in`
otherwise; and each of `access_token`, `refresh_token`, `id_token`,
`token_type` present in the reply appears under `accessToken`,
`refreshToken`, `idToken`, `tokenType` with unchanged value. -/
theorem tokenreply_tokendata_fields (pp : List Char → Option AtPayload)
    (fmt : Int → String) (now : Int) (cid : Option String) (reply out : Dict)
    (h : tokenreply_to_tokendata pp fmt now cid reply = some out) :
    (∀ v, dlookup reply "expires_on" = some v →
      ∃ m, toIntPy v = some m ∧ dlookup out "expiresOn" = some (JVal.s (fmt m)))
    ∧ (dlookup reply "expires_on" = none →
       ∀ v, dlookup reply "expires_in" = some v →
       ∃ m, toIntPy v = some m ∧ dlookup out "expiresOn" = some (JVal.s (fmt (now + m))))
    ∧ (∀ v, dlookup reply "access_token" = some v → dlookup out "accessToken" = some v)
    ∧ (∀ v, dlookup reply "refresh_token" = some v → dlookup out "refreshToken" = some v)
    ∧ (∀ v, dlookup reply "id_token" = some v → dlookup out "idToken" = some v)
    ∧ (∀ v, dlookup reply "token_type" = some v → dlookup out "tokenType" = some v) := by
  obtain ⟨tt, eo, ats, seg, payload, htt, heo, hat, hseg, hpl, hout⟩ :=
    tokenreply_to_tokendata_some pp fmt now cid reply out h
  have hexp : dlookup out "expiresOn" = some (JVal.s eo) := by
    rw [hout, trLoop_lookup_other _ _ _ (by decide) (by decide) (by decide) (by decide),
      tokendataCore_expiresOn]
  refine ⟨?_, ?_, ?_, ?_, ?_, ?_⟩
  · intro v hv
    unfold expiresOnStr at heo
    rw [hv] at heo
    have heo2 : Option.map fmt (toIntPy v) = some eo := heo
    cases hm : toIntPy v with
    | none => rw [hm] at heo2; simp at heo2
    | some m =>
      rw [hm] at heo2
      simp only [Option.map_some', Option.some.injEq] at heo2
      exact ⟨m, rfl, by rw [hexp, heo2]⟩
  · intro hno v hv
    unfold expiresOnStr at heo
    rw [hno, hv] at heo
    have heo2 : Option.map (fun k => fmt (now + k)) (toIntPy v) = some eo := heo
    cases hm : toIntPy v with
    | none => rw [hm] at heo2; simp at heo2
    | some m =>
      rw [hm] at heo2
      simp only [Option.map_some', Option.some.injEq] at heo2
      exact ⟨m, rfl, by rw [hexp, ← heo2]⟩
  · intro v hv
    rw [hout]
    exact trLoop_accessToken _ _ _ hv
  · intro v hv
    rw [hout]
    exact trLoop_refreshToken _ _ _ hv
  · intro v hv
    rw [hout]
    exact trLoop_idToken _ _ _ hv
  · intro v hv
    rw [hout]
    exact trLoop_tokenType _ _ _ hv

theorem output_no_token_type (pp : List Char → Option AtPayload)
    (fmt : Int → String) (now : Int) (cid : Option String) (reply out : Dict)
    (h : tokenreply_to_tokendata pp fmt now cid reply = some out) :
    dlookup out "token_type" = none := by
  obtain ⟨tt, eo, ats, seg, payload, htt, heo, hat, hseg, hpl, hout⟩ :=
    tokenreply_to_tokendata_some pp fmt now cid reply out h
  rw [hout, trLoop_lookup_other _ _ _ (by decide) (by decide) (by decide) (by decide),
    tokendataCore_token_type]

/-- C6 (amended): `tokenreply_to_tokendata` is not idempotent — the
normalized record carries only the camel-case keys, so applying the
translation to the result of any accepted reply always fails (the KeyError
on `token_type`), for every choice of parameters in the second
application. -/
theorem tokenreply_tokendata_not_idempotent (pp pp2 : List Char → Option AtPayload)
    (fmt fmt2 : Int → String) (now now2 : Int) (cid cid2 : Option String) (reply out : Dict)
    (h : tokenreply_to_tokendata pp fmt now cid reply = some out) :
    tokenreply_to_tokendata pp2 fmt2 now2 cid2 out = none := by
  have hno := output_no_token_type pp fmt now cid reply out h
  unfold tokenreply_to_tokendata
  rw [hno]
  simp

/-- C6 counterexample: a concrete accepted reply whose normalized record,
fed back into `tokenreply_to_tokendata`, yields an error rather than the
same record. -/
theorem tokenreply_idempotent_cex :
    tokenreply_to_tokendata (fun _ => some ⟨none, none⟩) (fun _ => "t") 0 none
        [("token_type", JVal.s "Bearer"), ("expires_on", JVal.i 0), ("access_token", JVal.s "a.b")]
      = some [("tokenType", JVal.s "Bearer"), ("expiresOn", JVal.s "t"),
              ("accessToken", JVal.s "a.b")]
    ∧ tokenreply_to_tokendata (fun _ => some ⟨none, none⟩) (fun _ => "t") 0 none
        [("tokenType", JVal.s "Bearer"), ("expiresOn", JVal.s "t"),
         ("accessToken", JVal.s "a.b")]
      = none := by
  decide

theorem tokendataCore_tenantId_none (tt : JVal) (eo : String) (payload : AtPayload)
    (cid : Option String) (h : payload.tid = none) :
    dlookup (tokendataCore tt eo payload cid) "tenantId" = none := by
  unfold tokendataCore
  rcases payload with ⟨tid, appid⟩
  cases tid <;> cases cid <;> cases appid <;>
    simp_all [dlookup_dinsert_ne, dinsert, dlookup]

theorem tokendataCore_clientId_none (tt : JVal) (eo : String) (payload : AtPayload)
    (h : payload.appid = none) :
    dlookup (tokendataCore tt eo payload none) "_clientId" = none := by
  unfold tokendataCore
  rcases payload with ⟨tid, appid⟩
  cases tid <;> cases appid <;>
    simp_all [dlookup_dinsert_ne, dinsert, dlookup]

/-- C7 (amended): `tokenreply_to_tokendata` accepts a reply with any subset
of `refresh_token` and `id_token` provided `token_type`, an epoch source and
an `access_token` with parseable middle JWT segment are present, and the
`tid`/`appid`-derived fields `tenantId` and `_clientId` are simply absent
when those claims are missing; but `access_token` itself is required — a
reply without it is rejected (KeyError), contrary to the original claim. -/
theorem tokenreply_tokendata_access_token_required (pp : List Char → Option AtPayload)
    (fmt : Int → String) (now : Int) (reply reply2 : Dict) (cid2 : Option String)
    (tt : JVal) (eo : String) (ats : String) (seg : List Char) (payload : AtPayload)
    (htt : dlookup reply "token_type" = some tt)
    (heo : expiresOnStr fmt now reply = some eo)
    (hat : dlookup reply "access_token" = some (JVal.s ats))
    (hseg : (splitSep '.' ats.data)[1]? = some seg)
    (hpl : pp seg = some payload) :
    tokenreply_to_tokendata pp fmt now none reply
        = some (trLoop (tokendataCore tt eo payload none) reply)
    ∧ (payload.tid = none →
        dlookup (trLoop (tokendataCore tt eo payload none) reply) "tenantId" = none)
    ∧ (payload.appid = none →
        dlookup (trLoop (tokendataCore tt eo payload none) reply) "_clientId" = none)
    ∧ (dlookup reply2 "access_token" = none →
        tokenreply_to_tokendata pp fmt now cid2 reply2 = none) := by
  refine ⟨?_, ?_, ?_, ?_⟩
  · simp only [tokenreply_to_tokendata, Option.bind_eq_bind, htt, heo, hat, hseg, hpl,
      Option.some_bind, pure]
  · intro hti
    rw [trLoop_lookup_other _ _ _ (by decide) (by decide) (by decide) (by decide),
      tokendataCore_tenantId_none _ _ _ _ hti]
  · intro hap
    rw [trLoop_lookup_other _ _ _ (by decide) (by decide) (by decide) (by decide),
      tokendataCore_clientId_none _ _ _ hap]
  · intro hnone
    unfold tokenreply_to_tokendata
    cases htt2 : dlookup reply2 "token_type" with
    | none => simp
    | some tt2 =>
      cases heo2 : expiresOnStr fmt now reply2 with
      | none => simp
      | some eo2 => simp [hnone]

/-- C7 counterexample: a reply with `token_type`, `expires_on` and
`id_token` but no `access_token` makes `tokenreply_to_tokendata` raise
(return no record), contradicting the claimed acceptance of any subset. -/
theorem tokenreply_no_access_token_cex :
    tokenreply_to_tokendata (fun _ => some ⟨none, none⟩) (fun _ => "t") 0 none
        [("token_type", JVal.s "Bearer"), ("expires_on", JVal.i 0), ("id_token", JVal.s "x")]
      = none := by
  decide

/-- C5 (amended): when a bulk-enrollment begin response or the first
modeled poll response carries state CompleteError with `resultData` present,
`get_bulk_enrollment_token` prints the error and returns False — it does not
raise an authentication error. -/
theorem bulk_complete_error_returns_false
    (parseRD : JVal → Option Dict) (pp : List Char → Option AtPayload)
    (fmt : Int → String) (now : Int) (begindata p : Dict) (polls : List Dict)
    (rd rd2 : JVal) :
    (dlookup begindata "state" = some (JVal.s "CompleteError") →
     dlookup begindata "resultData" = some rd →
     get_bulk_enrollment_token parseRD pp fmt now begindata polls = BulkOutcome.returnedFalse)
    ∧ (dlookup p "state" = some (JVal.s "CompleteError") →
       dlookup p "resultData" = some rd2 →
       bulkPoll parseRD pp fmt now (p :: polls) = BulkOutcome.returnedFalse) := by
  constructor
  · intro hst hrd
    unfold get_bulk_enrollment_token
    rw [hst, hrd]
    rw [if_neg (by decide), if_pos rfl]
  · intro hst hrd
    unfold bulkPoll
    rw [hst, hrd]
    rw [if_neg (by decide), if_pos rfl]

/-- C5 counterexample: on a begin response with state CompleteError and a
`resultData` payload, the function returns False instead of raising. -/
theorem bulk_complete_error_cex :
    get_bulk_enrollment_token (fun _ => none) (fun _ => some ⟨none, none⟩) (fun _ => "t") 0
        [("state", JVal.s "CompleteError"), ("resultData", JVal.s "oops")] []
      = BulkOutcome.returnedFalse
    ∧ get_bulk_enrollment_token (fun _ => none) (fun _ => some ⟨none, none⟩) (fun _ => "t") 0
        [("state", JVal.s "CompleteError"), ("resultData", JVal.s "oops")] []
      ≠ BulkOutcome.raised := by
  decide

theorem bulk_complete_error_returns_false_witness :
    get_bulk_enrollment_token (fun _ => none) (fun _ => some ⟨none, none⟩) (fun _ => "u") 1
        [("state", JVal.s "CompleteError"), ("resultData", JVal.i 7)] []
      = BulkOutcome.returnedFalse
    ∧ bulkPoll (fun _ => none) (fun _ => some ⟨none, none⟩) (fun _ => "u") 1
        [[("state", JVal.s "CompleteError"), ("resultData", JVal.i 8)]]
      = BulkOutcome.returnedFalse := by
  have ht := bulk_complete_error_returns_false (fun _ => none) (fun _ => some ⟨none, none⟩)
      (fun _ => "u") 1 [("state", JVal.s "CompleteError"), ("resultData", JVal.i 7)]
      [("state", JVal.s "CompleteError"), ("resultData", JVal.i 8)] [] (JVal.i 7) (JVal.i 8)
  exact ⟨ht.1 (by decide) (by decide), ht.2 (by decide) (by decide)⟩

theorem kdf_v1_deterministic_witness :
    calculate_derived_key [1] [9] (some [5]) = calculate_derived_key [2] [9] (some [5])
    ∧ (calculate_derived_key [1] [9] (some [5])).1 = [5] := by
  have ht := kdf_v1_deterministic [1] [2] [9] [5] (by decide)
  exact ⟨ht.1, ht.2.1⟩

theorem pubkey_blob_roundtrip_witness :
    parse_pubkey_blob (create_pubkey_blob_from_key 65537 3233) = some (65537, 3233) :=
  (pubkey_blob_roundtrip 65537 3233 (by decide) (by decide)).2

theorem decrypt_passthrough_witness :
    decrypt_auth_response (fun _ => none) (fun _ _ _ _ => none) (fun _ _ _ => none) []
        ("\x7b\"a".data) [1] false
      = some (DecOut.str ("\x7b\"a".data)) :=
  ((decrypt_passthrough (fun _ => none) (fun _ _ _ _ => none) (fun _ _ _ _ => none)
      (fun _ _ _ => none) (fun _ _ _ => none) [] [] ("\x7b\"a".data) [1] [2] false
      (by decide)).2.2) rfl

theorem prt_cookie_code_path_iff_witness :
    authenticate_with_prt_cookie_response 302 "https://r/nc?code=xyz".data "https://r/nc".data
      = PrtCookieOutcome.code "xyz".data :=
  (prt_cookie_code_path_iff 302 "https://r/nc?code=xyz".data "https://r/nc".data).2
    "xyz".data rfl ⟨[], "?code=xyz".data, by decide⟩ (by decide)

theorem decrypt_jwe_dispatch_witness :
    decrypt_auth_response
        (fun b => if b = [0, 0, 0] then some [("ctx", JVal.s "AAAA")] else none)
        (fun _ _ _ aad => some aad) (fun _ _ _ => none) []
        "AAAA.x.AAAAAAAAAAAAAAAA.QUJD.RUZH".data [7] false
      = some (DecOut.bytes [65, 65, 65, 65]) :=
  (decrypt_jwe_dispatch
      (fun b => if b = [0, 0, 0] then some [("ctx", JVal.s "AAAA")] else none)
      (fun _ _ _ aad => some aad) (fun _ _ _ => none) []
      "AAAA.x.AAAAAAAAAAAAAAAA.QUJD.RUZH".data
      "AAAA.x.AAAAAAAAAAAAAAAA.QUJD.SUpL".data [7] false
      "AAAA".data "x".data "AAAAAAAAAAAAAAAA".data "QUJD".data "RUZH".data "SUpL".data
      (by decide) (by decide) [0, 0, 0] (by decide) [("ctx", JVal.s "AAAA")] (by decide)
      "AAAA" (by decide) [0, 0, 0] (by decide) [0, 0, 0, 0, 0, 0, 0, 0, 0, 0, 0, 0] (by decide)
      [65, 66, 67] (by decide) [69, 70, 71] (by decide)
      (by decide) (by decide) [73, 74, 75] (by decide)).1 (by decide)

theorem tokenreply_tokendata_fields_witness :
    ∃ m, toIntPy (JVal.i 9) = some m ∧
      dlookup [("tokenType", JVal.s "B"), ("expiresOn", JVal.s "T"),
        ("accessToken", JVal.s "h.p")] "expiresOn" = some (JVal.s "T") :=
  (tokenreply_tokendata_fields (fun _ => some ⟨none, none⟩) (fun _ => "T") 0 none
      [("token_type", JVal.s "B"), ("expires_on", JVal.i 9), ("access_token", JVal.s "h.p")]
      [("tokenType", JVal.s "B"), ("expiresOn", JVal.s "T"), ("accessToken", JVal.s "h.p")]
      (by decide)).1 (JVal.i 9) (by decide)

theorem tokenreply_tokendata_not_idempotent_witness :
    tokenreply_to_tokendata (fun _ => some ⟨none, none⟩) (fun _ => "u") 3 none
        [("tokenType", JVal.s "B2"), ("expiresOn", JVal.s "u"), ("accessToken", JVal.s "x.y")]
      = none :=
  tokenreply_tokendata_not_idempotent (fun _ => some ⟨none, none⟩) (fun _ => some ⟨none, none⟩)
      (fun _ => "u") (fun _ => "u") 3 3 none none
      [("token_type", JVal.s "B2"), ("expires_on", JVal.i 1), ("access_token", JVal.s "x.y")]
      [("tokenType", JVal.s "B2"), ("expiresOn", JVal.s "u"), ("accessToken", JVal.s "x.y")]
      (by decide)

theorem tokenreply_access_token_required_witness :
    tokenreply_to_tokendata (fun _ => some ⟨none, none⟩) (fun _ => "w") 2 none
        [("token_type", JVal.s "B3"), ("expires_in", JVal.i 60),
         ("access_token", JVal.s "p.q"), ("refresh_token", JVal.s "R")]
      = some [("tokenType", JVal.s "B3"), ("expiresOn", JVal.s "w"),
              ("accessToken", JVal.s "p.q"), ("refreshToken", JVal.s "R")]
    ∧ dlookup [("tokenType", JVal.s "B3"), ("expiresOn", JVal.s "w"),
              ("accessToken", JVal.s "p.q"), ("refreshToken", JVal.s "R")] "tenantId" = none
    ∧ dlookup [("tokenType", JVal.s "B3"), ("expiresOn", JVal.s "w"),
              ("accessToken", JVal.s "p.q"), ("refreshToken", JVal.s "R")] "_clientId" = none
    ∧ tokenreply_to_tokendata (fun _ => some ⟨none, none⟩) (fun _ => "w") 2 (some "X")
        [("token_type", JVal.s "B3")] = none := by
  have ht := tokenreply_tokendata_access_token_required (fun _ => some ⟨none, none⟩)
      (fun _ => "w") 2
      [("token_type", JVal.s "B3"), ("expires_in", JVal.i 60),
       ("access_token", JVal.s "p.q"), ("refresh_token", JVal.s "R")]
      [("token_type", JVal.s "B3")] (some "X")
      (JVal.s "B3") "w" "p.q" "q".data ⟨none, none⟩
      (by decide) (by decide) (by decide) (by decide) rfl
  exact ⟨ht.1, ht.2.1 rfl, ht.2.2.1 rfl, ht.2.2.2 (by decide)⟩
